import Mathlib

/-!
Verification of the Dynamic Command Engine of `src/app.py` (a Discord bot with
user-registered dynamic commands, backed by JSONBin storage).

The development shallowly embeds the parts of `app.py` that the checked
properties are about:

* the static validator `validate_user_code` together with the
  `SimpleASTValidator` walk (lines 214-249), over an embedded fragment of the
  Python AST;
* the registry operations `register_dynamic_command`, `delete_command`,
  `rename_command`, `delete_dynamic_command_from_store`,
  `save_dynamic_command` (lines 183-212, 434-517, 891-941);
* the persistence helpers `_jsonbin_get`, `_jsonbin_put`, `load_guild_data`,
  `save_guild_data` (lines 82-114, 157-181);
* the per-invocation `callback` closure built by `register_dynamic_command`
  (lines 480-498).

External effects (the network, `exec`, the Discord dispatch tree's add
failures) are modelled by an explicit environment `Env` of oracles; the
mutable module-level dictionaries (`dynamic_commands_cache`, `guild_cache`,
`bot.tree`) are threaded as an explicit `BotState`.  Python's `ast.parse` is
not embedded: a source string is modelled as its length together with the
(possibly absent) parsed tree, and the validator is a function of those, as in
the source.
-/

namespace BotQube

/-! ## The embedded Python AST fragment

Only the node shapes that `SimpleASTValidator` and the entry-point search
distinguish are represented.  `ExprList`/`StmtList` are inlined lists so that
all recursions below are structural (hence kernel-reducible).
-/

mutual

inductive Expr where
  | Name (id : String)
  | Constant
  | Attribute (value : Expr) (attr : String)
  | Call (func : Expr) (args : ExprList)

inductive ExprList where
  | nil
  | cons (head : Expr) (tail : ExprList)

end

mutual

inductive Stmt where
  | FunctionDef (name : String) (numParams : Nat) (body : StmtList)
  | AsyncFunctionDef (name : String) (numParams : Nat) (body : StmtList)
  | ClassDef (name : String) (body : StmtList)
  | Assign (target : String) (value : Expr)
  | ExprStmt (value : Expr)
  | Return (value : Option Expr)
  | Pass

inductive StmtList where
  | nil
  | cons (head : Stmt) (tail : StmtList)

end

structure PyModule where
  body : StmtList

/-- A source string, as the validator consumes it: `len` is the length of the
original string (`len(code)` in the source), `parsed` is the result of
`ast.parse(textwrap.dedent(code))`, with `none` standing for a parse error. -/
structure Source where
  len : Nat
  parsed : Option PyModule

/-! ## `SimpleASTValidator` (app.py lines 218-233) -/

/-- The deny-list tuple of `visit_Call`. -/
def deniedNames : List String := ["eval", "exec", "__import__", "compile", "execfile"]

/-- The two `UnsafeCodeError` raise sites inside `SimpleASTValidator`. -/
inductive WalkErr where
  /-- `visit_Call`: "Call to {id} not allowed." -/
  | disallowedCall (id : String)
  /-- `visit_Attribute`: "Access to dunder attributes not allowed." -/
  | dunderAccess
deriving DecidableEq

/-- Python's `attr.startswith("__")`: the first two characters are
underscores.  (Spelled on the character list so that it is
kernel-reducible.) -/
def startsWithDunder (s : String) : Bool :=
  match s.data with
  | '_' :: '_' :: _ => true
  | _ => false

/-- The check `visit_Call` performs on the callee of a `Call` node, before
descending into the node's children. -/
def checkCallee : Expr → Option WalkErr
  | .Name id => if deniedNames.contains id then some (.disallowedCall id) else none
  | _ => none

mutual

/-- The `SimpleASTValidator().visit` traversal over an expression: pre-order,
node check before children, first raised error wins (`ast.NodeVisitor` with
`visit_Call` and `visit_Attribute` overridden; all other nodes fall through to
`generic_visit`). -/
def visitExpr : Expr → Option WalkErr
  | .Name _ => none
  | .Constant => none
  | .Attribute v a =>
      if startsWithDunder a then some .dunderAccess else visitExpr v
  | .Call f args =>
      match checkCallee f with
      | some w => some w
      | none =>
          match visitExpr f with
          | some w => some w
          | none => visitExprList args

/-- `generic_visit` over the argument list of a call. -/
def visitExprList : ExprList → Option WalkErr
  | .nil => none
  | .cons e es =>
      match visitExpr e with
      | some w => some w
      | none => visitExprList es

end

mutual

/-- The validator traversal over a statement. -/
def visitStmt : Stmt → Option WalkErr
  | .FunctionDef _ _ body => visitStmtList body
  | .AsyncFunctionDef _ _ body => visitStmtList body
  | .ClassDef _ body => visitStmtList body
  | .Assign _ value => visitExpr value
  | .ExprStmt value => visitExpr value
  | .Return none => none
  | .Return (some e) => visitExpr e
  | .Pass => none

/-- The validator traversal over a statement list. -/
def visitStmtList : StmtList → Option WalkErr
  | .nil => none
  | .cons s t =>
      match visitStmt s with
      | some w => some w
      | none => visitStmtList t

end

/-- `SimpleASTValidator().visit(tree)` on a whole module. -/
def visitModule (m : PyModule) : Option WalkErr := visitStmtList m.body

/-! ## The entry-point search of `validate_user_code` (lines 243-248)

The source iterates `ast.walk(tree)` looking for **any** `FunctionDef` or
`AsyncFunctionDef` named `run`, at any nesting depth; the parameter list is
not inspected. -/

mutual

/-- Does `ast.walk` find a def named `run` inside this statement? -/
def hasRunStmt : Stmt → Bool
  | .FunctionDef n _ b => n == "run" || hasRunStmtList b
  | .AsyncFunctionDef n _ b => n == "run" || hasRunStmtList b
  | .ClassDef _ b => hasRunStmtList b
  | .Assign _ _ => false
  | .ExprStmt _ => false
  | .Return _ => false
  | .Pass => false

/-- `hasRunStmt` over a statement list. -/
def hasRunStmtList : StmtList → Bool
  | .nil => false
  | .cons s t => hasRunStmt s || hasRunStmtList t

end

/-- The `found` flag computed by the `ast.walk` loop of `validate_user_code`. -/
def hasRunAnywhere (m : PyModule) : Bool := hasRunStmtList m.body

/-- The four `UnsafeCodeError` raise sites of `validate_user_code` (including
the ones re-raised from the walker). -/
inductive UnsafeCodeError where
  /-- "Invalid Python syntax: …" (the `ast.parse` failure). -/
  | invalidSyntax
  /-- An error raised inside `SimpleASTValidator().visit`. -/
  | walkErr (w : WalkErr)
  /-- "Code too long (max 10000 characters)." -/
  | tooLong
  /-- "You must define `async def run(interaction)` or `def run(interaction)`." -/
  | missingRun
deriving DecidableEq

/-- `validate_user_code` (app.py lines 235-249): parse, then the AST walk,
then the size check, then the entry-point search.  `none` means the code was
admitted (the Python function returned without raising). -/
def validate_user_code (codeLen : Nat) (parsed : Option PyModule) : Option UnsafeCodeError :=
  match parsed with
  | none => some .invalidSyntax
  | some tree =>
      match visitModule tree with
      | some w => some (.walkErr w)
      | none =>
          if codeLen > 10000 then some .tooLong
          else if hasRunAnywhere tree then none
          else some .missingRun

/-! ## Syntactic presence predicates

Used to state the claims: does a tree contain a call whose callee is a bare
deny-listed name, and does it contain a dunder attribute access anywhere. -/

mutual

/-- The tree contains a `Call` whose callee trips `checkCallee`. -/
def hasDeniedCallExpr : Expr → Bool
  | .Name _ => false
  | .Constant => false
  | .Attribute v _ => hasDeniedCallExpr v
  | .Call f args =>
      (checkCallee f).isSome || hasDeniedCallExpr f || hasDeniedCallExprList args

/-- `hasDeniedCallExpr` over an expression list. -/
def hasDeniedCallExprList : ExprList → Bool
  | .nil => false
  | .cons e es => hasDeniedCallExpr e || hasDeniedCallExprList es

end

mutual

/-- `hasDeniedCallExpr` over a statement. -/
def hasDeniedCallStmt : Stmt → Bool
  | .FunctionDef _ _ b => hasDeniedCallStmtList b
  | .AsyncFunctionDef _ _ b => hasDeniedCallStmtList b
  | .ClassDef _ b => hasDeniedCallStmtList b
  | .Assign _ v => hasDeniedCallExpr v
  | .ExprStmt v => hasDeniedCallExpr v
  | .Return none => false
  | .Return (some e) => hasDeniedCallExpr e
  | .Pass => false

/-- `hasDeniedCallStmt` over a statement list. -/
def hasDeniedCallStmtList : StmtList → Bool
  | .nil => false
  | .cons s t => hasDeniedCallStmt s || hasDeniedCallStmtList t

end

/-- The module contains a call expression whose callee is a bare deny-listed
name. -/
def hasDeniedCall (m : PyModule) : Bool := hasDeniedCallStmtList m.body

mutual

/-- The expression contains an attribute access whose attribute name starts
with a double underscore. -/
def hasDunderExpr : Expr → Bool
  | .Name _ => false
  | .Constant => false
  | .Attribute v a => startsWithDunder a || hasDunderExpr v
  | .Call f args => hasDunderExpr f || hasDunderExprList args

/-- `hasDunderExpr` over an expression list. -/
def hasDunderExprList : ExprList → Bool
  | .nil => false
  | .cons e es => hasDunderExpr e || hasDunderExprList es

end

mutual

/-- `hasDunderExpr` over a statement. -/
def hasDunderStmt : Stmt → Bool
  | .FunctionDef _ _ b => hasDunderStmtList b
  | .AsyncFunctionDef _ _ b => hasDunderStmtList b
  | .ClassDef _ b => hasDunderStmtList b
  | .Assign _ v => hasDunderExpr v
  | .ExprStmt v => hasDunderExpr v
  | .Return none => false
  | .Return (some e) => hasDunderExpr e
  | .Pass => false

/-- `hasDunderStmt` over a statement list. -/
def hasDunderStmtList : StmtList → Bool
  | .nil => false
  | .cons s t => hasDunderStmt s || hasDunderStmtList t

end

/-- The module contains a dunder attribute access. -/
def hasDunder (m : PyModule) : Bool := hasDunderStmtList m.body

/-! ## The spec's entry-point requirement

Modelled from the spec's words, for comparison with `validate_user_code`
(§4.1: "Require exactly one top-level function definition named `run`,
accepting exactly one parameter … in either blocking or suspending form"). -/

/-- Parameter counts of the top-level (module-level) defs named `run`. -/
def topLevelRunParams : StmtList → List Nat
  | .nil => []
  | .cons s t =>
      (match s with
        | .FunctionDef n p _ => if n == "run" then [p] else []
        | .AsyncFunctionDef n p _ => if n == "run" then [p] else []
        | _ => []) ++ topLevelRunParams t

/-- The spec's requirement: exactly one top-level def named `run`, with
exactly one parameter, sync or async. -/
def spec_entry_point_ok (m : PyModule) : Bool :=
  topLevelRunParams m.body == [1]

/-! ## String-keyed dictionaries

The module-level Python dicts (`dynamic_commands_cache`, `guild_cache`, the
per-guild command maps, the persisted `dynamic_commands` maps) are modelled as
association lists with set / delete / lookup. -/

/-- A Python dict with string keys. -/
abbrev AList (β : Type) := List (String × β)

/-- `d[k]` lookup (`None` when absent). -/
def alook {β : Type} : AList β → String → Option β
  | [], _ => none
  | (k', v') :: t, k => if k' == k then some v' else alook t k

/-- `d[k] = v`. -/
def aset {β : Type} : AList β → String → β → AList β
  | [], k, v => [(k, v)]
  | (k', v') :: t, k, v => if k' == k then (k, v) :: t else (k', v') :: aset t k v

/-- `d.pop(k, None)`. -/
def adel {β : Type} : AList β → String → AList β
  | [], _ => []
  | (k', v') :: t, k => if k' == k then adel t k else (k', v') :: adel t k

/-! ## Data model and mutable state -/

/-- A cached / persisted dynamic-command entry: `{"code": …, "description": …}`
(app.py lines 186-189, 511-514). -/
structure CmdData where
  code : Source
  description : String

/-- A tenant (guild) document.  Only the `dynamic_commands` key matters to the
engine; `none` models the key being absent from the JSON document. -/
structure GuildData where
  dynamic_commands : Option (AList CmdData)

/-- `{}`: the empty document `_jsonbin_get` degrades to. -/
def emptyGuildData : GuildData := { dynamic_commands := none }

/-- The mutable module-level state of app.py: `dynamic_commands_cache`,
`guild_cache`, and the per-guild slash-command names registered in
`bot.tree` (the external dispatch table). -/
structure BotState where
  dynamic_commands_cache : AList (AList CmdData)
  guild_cache : AList GuildData
  tree : AList (List String)

/-- The slash commands currently in the dispatch tree for a guild. -/
def treeCmds (st : BotState) (gid : String) : List String :=
  (alook st.tree gid).getD []

/-- Lookup of a dynamic command in `dynamic_commands_cache`. -/
def cacheLook (st : BotState) (gid name : String) : Option CmdData :=
  (alook st.dynamic_commands_cache gid).bind (fun m => alook m name)

/-- The external world: per-guild JSONBin configuration presence, the result
of each remote GET attempt, the success of each remote PUT attempt, and the
outcome of the non-embeddable steps of `register_dynamic_command`
(`exec` of the user code, the lookup of a callable `run` in its namespace,
and `bot.tree.add_command`). -/
structure Env where
  hasConfig : String → Bool
  fetch : String → Nat → Option GuildData
  put : String → Nat → Bool
  execFails : Bool
  execYieldsRun : Bool
  addCommandFails : Bool

/-! ## JSONBin helpers (app.py lines 82-114) -/

/-- Observable actions of the GET retry loop: an HTTP request, or an
`asyncio.sleep` of the given number of seconds. -/
inductive FetchEvent where
  | request
  | sleepFor (secs : Nat)
deriving DecidableEq

/-- The `for attempt in range(3)` loop of `_jsonbin_get`: on each failed
attempt the loop sleeps 1 second and retries; a successful attempt returns
immediately. -/
def jsonbinGetLoop (oracle : Nat → Option GuildData) :
    Nat → Nat → List FetchEvent × Option GuildData
  | _, 0 => ([], none)
  | i, n + 1 =>
      match oracle i with
      | some d => ([.request], some d)
      | none =>
          let r := jsonbinGetLoop oracle (i + 1) n
          (.request :: .sleepFor 1 :: r.1, r.2)

/-- `_jsonbin_get`: three attempts; after exhausting them it logs and returns
`{}` (never an error). -/
def jsonbin_get (oracle : Nat → Option GuildData) : List FetchEvent × GuildData :=
  let r := jsonbinGetLoop oracle 0 3
  (r.1, r.2.getD emptyGuildData)

/-- The `for attempt in range(3)` loop of `_jsonbin_put`: true as soon as an
attempt succeeds, false after exhausting all attempts. -/
def jsonbinPutLoop (oracle : Nat → Bool) : Nat → Nat → Bool
  | _, 0 => false
  | i, n + 1 => if oracle i then true else jsonbinPutLoop oracle (i + 1) n

/-- `_jsonbin_put`: three attempts, `Bool` result. -/
def jsonbin_put (oracle : Nat → Bool) : Bool :=
  jsonbinPutLoop oracle 0 3

/-! ## Guild data load/store (app.py lines 157-212) -/

/-- `load_guild_data`: cache hit short-circuits; otherwise, with a bin config,
fetch (three attempts) and cache the result; with no config, cache and return
`{}`.  Also returns the fetch events performed.  (`get_guild_bin_config`'s own
root-bin read is abstracted into `Env.hasConfig`.) -/
def load_guild_data (env : Env) (st : BotState) (gid : String) :
    GuildData × BotState × List FetchEvent :=
  match alook st.guild_cache gid with
  | some d => (d, st, [])
  | none =>
      if env.hasConfig gid then
        let r := jsonbin_get (env.fetch gid)
        (r.2, { st with guild_cache := aset st.guild_cache gid r.2 }, r.1)
      else
        (emptyGuildData,
         { st with guild_cache := aset st.guild_cache gid emptyGuildData }, [])

/-- `save_guild_data`: updates `guild_cache` first, unconditionally; then,
with a config, attempts the remote PUT (three attempts) and returns its
result; with no config, returns `False`. -/
def save_guild_data (env : Env) (st : BotState) (gid : String) (guild_data : GuildData) :
    Bool × BotState :=
  let st1 := { st with guild_cache := aset st.guild_cache gid guild_data }
  if env.hasConfig gid then (jsonbin_put (env.put gid), st1) else (false, st1)

/-- The overall outcome of the remote write `save_guild_data` performs. -/
def saveOK (env : Env) (gid : String) : Bool :=
  env.hasConfig gid && jsonbin_put (env.put gid)

/-- `save_dynamic_command`: writes the entry into `dynamic_commands_cache`,
then loads the guild document, writes the entry under its
`dynamic_commands` key (creating the key if needed) and saves the document. -/
def save_dynamic_command (env : Env) (st : BotState) (gid cmd_name : String)
    (code : Source) (description : Option String) : Bool × BotState :=
  let desc := description.getD ("Dynamic command: " ++ cmd_name)
  let entry : CmdData := { code := code, description := desc }
  let gcmds := (alook st.dynamic_commands_cache gid).getD []
  let st1 := { st with
    dynamic_commands_cache := aset st.dynamic_commands_cache gid (aset gcmds cmd_name entry) }
  let L := load_guild_data env st1 gid
  let gdata := L.1
  let st2 := L.2.1
  let dc := gdata.dynamic_commands.getD []
  let gdata2 : GuildData := { gdata with dynamic_commands := some (aset dc cmd_name entry) }
  save_guild_data env st2 gid gdata2

/-- `delete_dynamic_command_from_store`: pops the entry from
`dynamic_commands_cache` (if the guild has one), then loads the guild
document; if it has a `dynamic_commands` key, pops the entry and saves,
returning the save's result; otherwise returns `True` without saving. -/
def delete_dynamic_command_from_store (env : Env) (st : BotState) (gid cmd_name : String) :
    Bool × BotState :=
  let st1 :=
    match alook st.dynamic_commands_cache gid with
    | some m => { st with
        dynamic_commands_cache := aset st.dynamic_commands_cache gid (adel m cmd_name) }
    | none => st
  let L := load_guild_data env st1 gid
  let gdata := L.1
  let st2 := L.2.1
  match gdata.dynamic_commands with
  | some dc =>
      save_guild_data env st2 gid { gdata with dynamic_commands := some (adel dc cmd_name) }
  | none => (true, st2)

/-! ## Dynamic command registration (app.py lines 434-517) -/

/-- The `(bool, Optional[str])` pair `register_dynamic_command` returns. -/
inductive RegResult where
  | ok
  | err (msg : String)
deriving DecidableEq

/-- The `str(e)` message of each `UnsafeCodeError` raise site (detail of the
syntax error elided, as it comes from the Python parser). -/
def UnsafeCodeError.message : UnsafeCodeError → String
  | .invalidSyntax => "Invalid Python syntax"
  | .walkErr (.disallowedCall id) => "Call to " ++ id ++ " not allowed."
  | .walkErr .dunderAccess => "Access to dunder attributes not allowed."
  | .tooLong => "Code too long (max 10000 characters)."
  | .missingRun => "You must define `async def run(interaction)` or `def run(interaction)`."

/-- `register_dynamic_command`: validate; `exec` the code; look up a callable
`run`; remove a pre-existing command of the same name from the dispatch tree;
`bot.tree.add_command`; finally record the entry in
`dynamic_commands_cache`.  Exec / run-lookup / add-command outcomes come from
`Env`.  (The Python messages for exec and add failures carry exception detail;
here they are fixed strings.) -/
def register_dynamic_command (env : Env) (st : BotState) (gid cmd_name : String)
    (code : Source) (description : Option String) : RegResult × BotState :=
  match validate_user_code code.len code.parsed with
  | some e => (.err e.message, st)
  | none =>
      if env.execFails then (.err "Execution error", st)
      else if !env.execYieldsRun then
        (.err "No callable run(interaction) function found in code.", st)
      else
        let cmds := treeCmds st gid
        let st1 :=
          if cmds.contains cmd_name then
            { st with tree := aset st.tree gid (cmds.filter (fun c => c != cmd_name)) }
          else st
        if env.addCommandFails then (.err "Failed to add command", st1)
        else
          let desc := (description.getD ("Dynamic command: " ++ cmd_name)).take 100
          let cmds1 := treeCmds st1 gid
          let st2 := { st1 with tree := aset st1.tree gid (cmd_name :: cmds1) }
          let gcmds := (alook st2.dynamic_commands_cache gid).getD []
          (.ok, { st2 with
            dynamic_commands_cache :=
              aset st2.dynamic_commands_cache gid
                (aset gcmds cmd_name { code := code, description := desc }) })

/-- A sufficient (and, over the embedded failure modes, exact) condition for
`register_dynamic_command` to fail: validation rejects, `exec` raises, no
callable `run` results, or `bot.tree.add_command` raises. -/
def registerBlocked (env : Env) (code : Source) : Prop :=
  validate_user_code code.len code.parsed ≠ none ∨ env.execFails = true ∨
    env.execYieldsRun = false ∨ env.addCommandFails = true

/-! ## Admin command handlers (app.py lines 891-941)

The permission gate and the Discord interaction plumbing are outside the
engine; the handlers are modelled from their first state-relevant statement
on. -/

/-- The two responses `/delete_command` can send (after the admin gate). -/
inductive DeleteOutcome where
  /-- "⚠️ Failed to delete from storage." -/
  | storageFail
  /-- "Command `…` deleted." -/
  | deleted
deriving DecidableEq

/-- `/delete_command`: remove from the dispatch tree if present, then
`delete_dynamic_command_from_store`; report storage failure only when that
returns `False`. -/
def delete_command (env : Env) (st : BotState) (gid command_name : String) :
    DeleteOutcome × BotState :=
  let cmds := treeCmds st gid
  let st1 :=
    if cmds.contains command_name then
      { st with tree := aset st.tree gid (cmds.filter (fun c => c != command_name)) }
    else st
  let r := delete_dynamic_command_from_store env st1 gid command_name
  if !r.1 then (.storageFail, r.2) else (.deleted, r.2)

/-- The three responses `/rename_command` can send (after the admin gate). -/
inductive RenameOutcome where
  /-- "Command `old` not found." -/
  | notFound
  /-- "❌ Error: {error}" from the failed re-registration. -/
  | registerError (msg : String)
  /-- "Command `old` renamed to `new`." -/
  | renamed
deriving DecidableEq

/-- `/rename_command`: look up `old` in `dynamic_commands_cache`; remove `old`
from the dispatch tree and from the store; only then register `new`; on
success, persist `new`. -/
def rename_command (env : Env) (st : BotState) (gid old_name new_name : String) :
    RenameOutcome × BotState :=
  match alook st.dynamic_commands_cache gid with
  | none => (.notFound, st)
  | some m =>
      match alook m old_name with
      | none => (.notFound, st)
      | some cmd =>
          let code := cmd.code
          let desc := cmd.description
          let cmds := treeCmds st gid
          let st1 :=
            if cmds.contains old_name then
              { st with tree := aset st.tree gid (cmds.filter (fun c => c != old_name)) }
            else st
          let d := delete_dynamic_command_from_store env st1 gid old_name
          match register_dynamic_command env d.2 gid new_name code (some desc) with
          | (.err e, st3) => (.registerError e, st3)
          | (.ok, st3) =>
              let s := save_dynamic_command env st3 gid new_name code (some desc)
              (.renamed, s.2)

/-! ## The per-invocation sandbox boundary (app.py lines 480-498)

The `callback` closure built inside `register_dynamic_command` around the
user's `run`.  The handler's behaviour and the interaction plumbing are
oracles; the try/except structure is embedded exactly. -/

/-- What `await`ing the user handler under `asyncio.wait_for` /
`run_blocking` did: returned a value (`none` models a falsy result),
timed out, or raised. -/
inductive RunOutcome where
  | ok (ret : Option String)
  | timeout
  | raises (msg : String)

/-- The invocation-time environment of one `callback` call. -/
structure InvokeEnv where
  run_result : RunOutcome
  /-- `interaction.response.is_done()`. -/
  responseDone : Bool
  /-- Whether `interaction.response.send_message` itself raises. -/
  sendRaises : Bool

/-- A message the callback sends back on this invocation. -/
inductive Sent where
  | resultMsg (s : String)
  /-- "⏱️ Command timed out." -/
  | timedOut
  /-- "❌ Error: {e}" -/
  | errorReport (s : String)
deriving DecidableEq

/-- The `callback` body.  `Except.error` models an exception escaping the
callback into the framework (which can only happen from the send inside the
`asyncio.TimeoutError` handler, the one send not wrapped in a try).  A handler
exception lands in `except Exception`, whose own send is wrapped in
`try: … except: pass`.  The callback touches no registry state, so the
`BotState` is returned untouched on every path. -/
def callback (env : InvokeEnv) (st : BotState) :
    Except String (Option Sent) × BotState :=
  match env.run_result with
  | .ok ret =>
      match ret with
      | some s =>
          if env.responseDone then (.ok none, st)
          else if env.sendRaises then
            -- the result send raised; `except Exception` replies, and that
            -- reply send raises too and is swallowed by `except: pass`
            (.ok none, st)
          else (.ok (some (.resultMsg s)), st)
      | none => (.ok none, st)
  | .timeout =>
      if env.responseDone then (.ok none, st)
      else if env.sendRaises then (.error "send raised in timeout handler", st)
      else (.ok (some .timedOut), st)
  | .raises msg =>
      if env.responseDone then (.ok none, st)
      else if env.sendRaises then (.ok none, st)
      else (.ok (some (.errorReport msg)), st)

/-! ## Concrete programs and states used as test inputs -/

/-- `async def run(interaction): pass` -/
def mRun : PyModule :=
  ⟨.cons (.AsyncFunctionDef "run" 1 (.cons .Pass .nil)) .nil⟩

/-- `def run(interaction, extra): pass` — a top-level `run` with two
parameters. -/
def mTwoParams : PyModule :=
  ⟨.cons (.FunctionDef "run" 2 (.cons .Pass .nil)) .nil⟩

/-- `def outer(x):\n    def run(interaction): pass` — `run` only nested. -/
def mNested : PyModule :=
  ⟨.cons (.FunctionDef "outer" 1
    (.cons (.FunctionDef "run" 1 (.cons .Pass .nil)) .nil)) .nil⟩

/-- `async def run(interaction):\n    eval(...)` -/
def mEval : PyModule :=
  ⟨.cons (.AsyncFunctionDef "run" 1
    (.cons (.ExprStmt (.Call (.Name "eval") (.cons .Constant .nil))) .nil)) .nil⟩

/-- `x.__class__\neval()` — a dunder attribute access occurring before a
deny-listed call in traversal order. -/
def mMixed : PyModule :=
  ⟨.cons (.ExprStmt (.Attribute (.Name "x") "__class__"))
    (.cons (.ExprStmt (.Call (.Name "eval") .nil)) .nil)⟩

/-- `async def run(interaction):\n    f = eval\n    f(...)` — the primitive
bound to a variable and called through it. -/
def mIndirect : PyModule :=
  ⟨.cons (.AsyncFunctionDef "run" 1
    (.cons (.Assign "f" (.Name "eval"))
      (.cons (.ExprStmt (.Call (.Name "f") (.cons .Constant .nil))) .nil))) .nil⟩

/-- `async def run(interaction):\n    builtins.eval(...)` — the primitive
called as an attribute of a module object. -/
def mAttrCall : PyModule :=
  ⟨.cons (.AsyncFunctionDef "run" 1
    (.cons (.ExprStmt (.Call (.Attribute (.Name "builtins") "eval")
      (.cons .Constant .nil))) .nil)) .nil⟩

/-- A valid 30-character source whose tree is `mRun`. -/
def srcOk : Source := ⟨30, some mRun⟩

/-- A registered command entry. -/
def cmdFoo : CmdData := { code := srcOk, description := "says foo" }

/-- A guild document holding the command `foo`. -/
def gdFoo : GuildData := { dynamic_commands := some [("foo", cmdFoo)] }

/-- State with the command `foo` registered for guild `g`, its document
cached, and its dispatch-tree entry present. -/
def stReg : BotState :=
  { dynamic_commands_cache := [("g", [("foo", cmdFoo)])]
    guild_cache := [("g", gdFoo)]
    tree := [("g", ["foo"])] }

/-- The completely empty state. -/
def stEmpty : BotState := ⟨[], [], []⟩

/-- State for guild `g` whose cached document has no `dynamic_commands` key
and which has no registered commands. -/
def stEmptyDoc : BotState :=
  { dynamic_commands_cache := [("g", [])]
    guild_cache := [("g", emptyGuildData)]
    tree := [("g", [])] }

/-- Benign environment: config present, every remote PUT succeeds, every
remote GET attempt fails (irrelevant when documents are cached), `exec` and
`add_command` succeed. -/
def envBase : Env :=
  { hasConfig := fun _ => true
    fetch := fun _ _ => none
    put := fun _ _ => true
    execFails := false
    execYieldsRun := true
    addCommandFails := false }

/-- `exec` of user code raises. -/
def envExecFail : Env := { envBase with execFails := true }

/-- `bot.tree.add_command` raises. -/
def envAddFail : Env := { envBase with addCommandFails := true }

/-- Every remote PUT attempt fails. -/
def envPutFail : Env := { envBase with put := fun _ _ => false }

/-- An invocation in which the handler raises `"boom"`. -/
def envRaise : InvokeEnv :=
  { run_result := .raises "boom", responseDone := false, sendRaises := false }

/-- The state `register_dynamic_command` leaves behind when
`bot.tree.add_command` fails while re-registering `foo` over `stReg`: the
pre-existing dispatch-tree entry is gone. -/
def stRegTreeless : BotState := { stReg with tree := [("g", [])] }

/-! ## Dictionary lemmas -/

theorem alook_aset_self {β : Type} (m : AList β) (k : String) (v : β) :
    alook (aset m k v) k = some v := by
  induction m with
  | nil => simp [aset, alook]
  | cons p t ih =>
      obtain ⟨k', v'⟩ := p
      by_cases h : (k' == k) = true
      · simp [aset, h, alook]
      · simp only [aset, Bool.not_eq_true] at *
        simp [h, alook, ih]

theorem alook_adel_self {β : Type} (m : AList β) (k : String) :
    alook (adel m k) k = none := by
  induction m with
  | nil => rfl
  | cons p t ih =>
      obtain ⟨k', v'⟩ := p
      cases h : k' == k
      · simp [adel, h, alook, ih]
      · simp [adel, h, ih]

theorem contains_filter_self (l : List String) (k : String) :
    (l.filter (fun c => c != k)).contains k = false := by
  induction l with
  | nil => rfl
  | cons a t ih =>
      by_cases h : (a == k) = true
      · simp [List.filter_cons, bne, h, ih]
      · simp only [List.filter_cons, bne, h, Bool.not_false, if_pos]
        simp only [List.contains_cons, ih, Bool.or_false]
        simpa [BEq.comm] using h

theorem contains_filter_mono (l : List String) (k : String) (p : String → Bool)
    (h : l.contains k = false) : (l.filter p).contains k = false := by
  induction l with
  | nil => rfl
  | cons a t ih =>
      simp only [List.contains_cons, Bool.or_eq_false_iff] at h
      by_cases hp : p a = true
      · simp only [List.filter_cons, hp, if_pos, List.contains_cons,
          Bool.or_eq_false_iff]
        exact ⟨h.1, ih h.2⟩
      · simp only [Bool.not_eq_true] at hp
        simp only [List.filter_cons, hp, Bool.false_eq_true, if_neg, ite_false]
        exact ih h.2

/-! ## Walker soundness lemmas (for claim C6) -/

theorem checkCallee_spec (f : Expr) (w : WalkErr) (h : checkCallee f = some w) :
    ∃ id, w = .disallowedCall id ∧ deniedNames.contains id = true := by
  cases f with
  | Name id =>
      simp only [checkCallee] at h
      cases hc : deniedNames.contains id
      · rw [hc] at h
        simp at h
      · rw [hc] at h
        obtain rfl : WalkErr.disallowedCall id = w := by simpa using h
        exact ⟨id, rfl, hc⟩
  | Constant => simp [checkCallee] at h
  | Attribute v a => simp [checkCallee] at h
  | Call f args => simp [checkCallee] at h

mutual

theorem visitExpr_none_noDenied : ∀ (e : Expr), visitExpr e = none →
    hasDeniedCallExpr e = false
  | .Name _, _ => rfl
  | .Constant, _ => rfl
  | .Attribute v a, h => by
      unfold visitExpr at h
      by_cases hd : startsWithDunder a = true
      · simp [hd] at h
      · simp only [Bool.not_eq_true] at hd
        simp only [hd, Bool.false_eq_true, if_neg, ite_false] at h
        exact visitExpr_none_noDenied v h
  | .Call f args, h => by
      unfold visitExpr at h
      cases hc : checkCallee f with
      | some w => rw [hc] at h; cases h
      | none =>
          rw [hc] at h
          cases hf : visitExpr f with
          | some w => rw [hf] at h; cases h
          | none =>
              rw [hf] at h
              show ((checkCallee f).isSome || hasDeniedCallExpr f
                || hasDeniedCallExprList args) = false
              rw [hc, visitExpr_none_noDenied f hf,
                visitExprList_none_noDenied args h]
              rfl

theorem visitExprList_none_noDenied : ∀ (l : ExprList), visitExprList l = none →
    hasDeniedCallExprList l = false
  | .nil, _ => rfl
  | .cons e es, h => by
      unfold visitExprList at h
      cases he : visitExpr e with
      | some w => rw [he] at h; cases h
      | none =>
          rw [he] at h
          show (hasDeniedCallExpr e || hasDeniedCallExprList es) = false
          rw [visitExpr_none_noDenied e he, visitExprList_none_noDenied es h]
          rfl

end

mutual

theorem visitStmt_none_noDenied : ∀ (s : Stmt), visitStmt s = none →
    hasDeniedCallStmt s = false
  | .FunctionDef _ _ b, h => visitStmtList_none_noDenied b h
  | .AsyncFunctionDef _ _ b, h => visitStmtList_none_noDenied b h
  | .ClassDef _ b, h => visitStmtList_none_noDenied b h
  | .Assign _ v, h => visitExpr_none_noDenied v h
  | .ExprStmt v, h => visitExpr_none_noDenied v h
  | .Return none, _ => rfl
  | .Return (some e), h => visitExpr_none_noDenied e h
  | .Pass, _ => rfl

theorem visitStmtList_none_noDenied : ∀ (l : StmtList), visitStmtList l = none →
    hasDeniedCallStmtList l = false
  | .nil, _ => rfl
  | .cons s t, h => by
      unfold visitStmtList at h
      cases hs : visitStmt s with
      | some w => rw [hs] at h; cases h
      | none =>
          rw [hs] at h
          show (hasDeniedCallStmt s || hasDeniedCallStmtList t) = false
          rw [visitStmt_none_noDenied s hs, visitStmtList_none_noDenied t h]
          rfl

end

mutual

theorem visitExpr_dunder : ∀ (e : Expr), visitExpr e = some .dunderAccess →
    hasDunderExpr e = true
  | .Name _, h => by cases h
  | .Constant, h => by cases h
  | .Attribute v a, h => by
      unfold visitExpr at h
      by_cases hd : startsWithDunder a = true
      · show (startsWithDunder a || hasDunderExpr v) = true
        rw [hd]; rfl
      · simp only [Bool.not_eq_true] at hd
        simp only [hd, Bool.false_eq_true, if_neg, ite_false] at h
        show (startsWithDunder a || hasDunderExpr v) = true
        rw [visitExpr_dunder v h]
        simp
  | .Call f args, h => by
      unfold visitExpr at h
      cases hc : checkCallee f with
      | some w =>
          rw [hc] at h
          obtain ⟨id, hw, _⟩ := checkCallee_spec f w hc
          rw [hw] at h
          cases h
      | none =>
          rw [hc] at h
          show (hasDunderExpr f || hasDunderExprList args) = true
          cases hf : visitExpr f with
          | some w =>
              rw [hf] at h
              cases h
              rw [visitExpr_dunder f hf]
              rfl
          | none =>
              rw [hf] at h
              rw [visitExprList_dunder args h]
              simp

theorem visitExprList_dunder : ∀ (l : ExprList),
    visitExprList l = some .dunderAccess → hasDunderExprList l = true
  | .cons e es, h => by
      unfold visitExprList at h
      show (hasDunderExpr e || hasDunderExprList es) = true
      cases he : visitExpr e with
      | some w =>
          rw [he] at h
          cases h
          rw [visitExpr_dunder e he]
          rfl
      | none =>
          rw [he] at h
          rw [visitExprList_dunder es h]
          simp

end

mutual

theorem visitStmt_dunder : ∀ (s : Stmt), visitStmt s = some .dunderAccess →
    hasDunderStmt s = true
  | .FunctionDef _ _ b, h => visitStmtList_dunder b h
  | .AsyncFunctionDef _ _ b, h => visitStmtList_dunder b h
  | .ClassDef _ b, h => visitStmtList_dunder b h
  | .Assign _ v, h => visitExpr_dunder v h
  | .ExprStmt v, h => visitExpr_dunder v h
  | .Return (some e), h => visitExpr_dunder e h
  | .Return none, h => by cases h
  | .Pass, h => by cases h

theorem visitStmtList_dunder : ∀ (l : StmtList),
    visitStmtList l = some .dunderAccess → hasDunderStmtList l = true
  | .cons s t, h => by
      unfold visitStmtList at h
      show (hasDunderStmt s || hasDunderStmtList t) = true
      cases hs : visitStmt s with
      | some w =>
          rw [hs] at h
          cases h
          rw [visitStmt_dunder s hs]
          rfl
      | none =>
          rw [hs] at h
          rw [visitStmtList_dunder t h]
          simp

end

mutual

theorem visitExpr_call_denied : ∀ (e : Expr) (id : String),
    visitExpr e = some (.disallowedCall id) → deniedNames.contains id = true
  | .Name _, _, h => by cases h
  | .Constant, _, h => by cases h
  | .Attribute v a, id, h => by
      unfold visitExpr at h
      by_cases hd : startsWithDunder a = true
      · simp [hd] at h
      · simp only [Bool.not_eq_true] at hd
        simp only [hd, Bool.false_eq_true, if_neg, ite_false] at h
        exact visitExpr_call_denied v id h
  | .Call f args, id, h => by
      unfold visitExpr at h
      cases hc : checkCallee f with
      | some w =>
          rw [hc] at h
          obtain ⟨id', hw, hmem⟩ := checkCallee_spec f w hc
          rw [hw] at h
          cases h
          exact hmem
      | none =>
          rw [hc] at h
          cases hf : visitExpr f with
          | some w =>
              rw [hf] at h
              cases h
              exact visitExpr_call_denied f id hf
          | none =>
              rw [hf] at h
              exact visitExprList_call_denied args id h

theorem visitExprList_call_denied : ∀ (l : ExprList) (id : String),
    visitExprList l = some (.disallowedCall id) → deniedNames.contains id = true
  | .cons e es, id, h => by
      unfold visitExprList at h
      cases he : visitExpr e with
      | some w =>
          rw [he] at h
          cases h
          exact visitExpr_call_denied e id he
      | none =>
          rw [he] at h
          exact visitExprList_call_denied es id h

end

mutual

theorem visitStmt_call_denied : ∀ (s : Stmt) (id : String),
    visitStmt s = some (.disallowedCall id) → deniedNames.contains id = true
  | .FunctionDef _ _ b, id, h => visitStmtList_call_denied b id h
  | .AsyncFunctionDef _ _ b, id, h => visitStmtList_call_denied b id h
  | .ClassDef _ b, id, h => visitStmtList_call_denied b id h
  | .Assign _ v, id, h => visitExpr_call_denied v id h
  | .ExprStmt v, id, h => visitExpr_call_denied v id h
  | .Return (some e), id, h => visitExpr_call_denied e id h
  | .Return none, _, h => by cases h
  | .Pass, _, h => by cases h

theorem visitStmtList_call_denied : ∀ (l : StmtList) (id : String),
    visitStmtList l = some (.disallowedCall id) → deniedNames.contains id = true
  | .cons s t, id, h => by
      unfold visitStmtList at h
      cases hs : visitStmt s with
      | some w =>
          rw [hs] at h
          cases h
          exact visitStmt_call_denied s id hs
      | none =>
          rw [hs] at h
          exact visitStmtList_call_denied t id h

end

theorem visitModule_none_noDenied (m : PyModule) (h : visitModule m = none) :
    hasDeniedCall m = false :=
  visitStmtList_none_noDenied m.body h

theorem visitModule_dunder (m : PyModule) (h : visitModule m = some .dunderAccess) :
    hasDunder m = true :=
  visitStmtList_dunder m.body h

theorem visitModule_call_denied (m : PyModule) (id : String)
    (h : visitModule m = some (.disallowedCall id)) :
    deniedNames.contains id = true :=
  visitStmtList_call_denied m.body id h

/-! ## Claim C3 -/

/-- Claim C3 (corrected).  The claim states that validation succeeds iff the
source has exactly one top-level `run` with exactly one parameter.  In the
code, the `ast.walk` search accepts **any** def named `run` at **any** depth
with **any** parameter count: `validate_user_code` admits a parsed source iff
the deny-list walk passes, the length is within bounds, and some def named
`run` occurs anywhere; and it reports the missing-entry-point error iff the
first two hold and no `run` occurs anywhere. -/
theorem validate_success_iff_run_anywhere (len : Nat) (m : PyModule) :
    (validate_user_code len (some m) = none ↔
      visitModule m = none ∧ len ≤ 10000 ∧ hasRunAnywhere m = true) ∧
    (validate_user_code len (some m) = some .missingRun ↔
      visitModule m = none ∧ len ≤ 10000 ∧ hasRunAnywhere m = false) := by
  unfold validate_user_code
  cases hv : visitModule m with
  | some w => simp [hv]
  | none =>
      by_cases hl : len > 10000
      · simp [hv, hl, show ¬(len ≤ 10000) by omega]
      · have h10 : len ≤ 10000 := by omega
        cases hr : hasRunAnywhere m <;> simp [hv, hl, h10, hr]

/-- Claim C3 counterexample: a top-level `run` taking two parameters is
admitted (no `MissingEntryPoint`), and so is a source whose only `run` is
nested inside another function — both violate the claimed iff, whose
right-hand side (`spec_entry_point_ok`, the spec's wording) is false here. -/
theorem validate_entry_point_counterexample :
    validate_user_code 10 (some mTwoParams) = none ∧
    spec_entry_point_ok mTwoParams = false ∧
    validate_user_code 10 (some mNested) = none ∧
    spec_entry_point_ok mNested = false :=
  ⟨rfl, rfl, rfl, rfl⟩

/-! ## Claim C4 -/

/-- Claim C4 (corrected).  The claim puts the size check before the deny-list
walk; in the code the walk runs first.  An oversized parsed source is
reported `tooLong` provided the walk raises nothing. -/
theorem validate_oversized_after_walk (len : Nat) (m : PyModule)
    (hw : visitModule m = none) (hlen : len > 10000) :
    validate_user_code len (some m) = some .tooLong := by
  simp [validate_user_code, hw, hlen]

/-- Witness for `validate_oversized_after_walk` at a concrete input. -/
theorem validate_oversized_after_walk_witness :
    visitModule mRun = none ∧ 10001 > 10000 ∧
    validate_user_code 10001 (some mRun) = some .tooLong :=
  ⟨rfl, by decide, validate_oversized_after_walk 10001 mRun rfl (by decide)⟩

/-- Claim C4 counterexample: a source of length 10001 containing an `eval`
call is reported `DisallowedConstruct`, not `TooLarge` — the tree walk
precedes the size check. -/
theorem validate_size_order_counterexample :
    10001 > 10000 ∧
    validate_user_code 10001 (some mEval) = some (.walkErr (.disallowedCall "eval")) :=
  ⟨by decide, rfl⟩

/-! ## Claim C6 -/

/-- Claim C6 (corrected).  A source containing a call expression whose callee
is a bare deny-listed name is always rejected by the walker (for any length,
since the walk precedes the size check), and whenever the reported error is a
disallowed-call error it names a deny-listed primitive; but the error names
the primitive only when no dunder-attribute access is hit first — with no
dunder access in the source, the error is guaranteed to be a
disallowed-call. -/
theorem denied_call_rejected (len : Nat) (m : PyModule)
    (h : hasDeniedCall m = true) :
    ∃ w, validate_user_code len (some m) = some (.walkErr w) ∧
      (∀ id, w = .disallowedCall id → deniedNames.contains id = true) ∧
      (hasDunder m = false → ∃ id, w = .disallowedCall id) := by
  cases hv : visitModule m with
  | none =>
      rw [visitModule_none_noDenied m hv] at h
      simp at h
  | some w =>
      refine ⟨w, ?_, ?_, ?_⟩
      · simp [validate_user_code, hv]
      · intro id hw
        subst hw
        exact visitModule_call_denied m id hv
      · intro hd
        cases w with
        | disallowedCall id => exact ⟨id, rfl⟩
        | dunderAccess =>
            rw [visitModule_dunder m hv] at hd
            simp at hd

/-- Witness for `denied_call_rejected` at a concrete input. -/
theorem denied_call_rejected_witness :
    hasDeniedCall mEval = true ∧
    (∃ w, validate_user_code 42 (some mEval) = some (.walkErr w) ∧
      (∀ id, w = .disallowedCall id → deniedNames.contains id = true) ∧
      (hasDunder mEval = false → ∃ id, w = .disallowedCall id)) :=
  ⟨rfl, denied_call_rejected 42 mEval rfl⟩

/-- Claim C6 counterexample: `mMixed` contains a call to the deny-listed
`eval`, yet the reported error is the dunder-access error — it does not name
the primitive, because a dunder attribute access occurs earlier in traversal
order. -/
theorem denied_call_naming_counterexample :
    hasDeniedCall mMixed = true ∧
    validate_user_code 50 (some mMixed) = some (.walkErr .dunderAccess) :=
  ⟨rfl, rfl⟩

/-! ## Claim C10 -/

/-- Claim C10 (confirmed): the deny-list check fires only on bare-name
callees.  A source that first binds `eval` to a variable and calls the
variable, and a source that calls `eval` as an attribute of a module object,
are both admitted by `validate_user_code` (and indeed contain no call whose
callee is a bare deny-listed name). -/
theorem indirect_denied_call_admitted :
    validate_user_code 60 (some mIndirect) = none ∧
    validate_user_code 60 (some mAttrCall) = none ∧
    hasDeniedCall mIndirect = false ∧
    hasDeniedCall mAttrCall = false :=
  ⟨rfl, rfl, rfl, rfl⟩

/-! ## Persistence-layer lemmas -/

theorem jsonbin_get_all_fail (oracle : Nat → Option GuildData)
    (h0 : oracle 0 = none) (h1 : oracle 1 = none) (h2 : oracle 2 = none) :
    jsonbin_get oracle =
      ([.request, .sleepFor 1, .request, .sleepFor 1, .request, .sleepFor 1],
        emptyGuildData) := by
  simp [jsonbin_get, jsonbinGetLoop, h0, h1, h2]

theorem jsonbin_put_all_fail (oracle : Nat → Bool)
    (h0 : oracle 0 = false) (h1 : oracle 1 = false) (h2 : oracle 2 = false) :
    jsonbin_put oracle = false := by
  simp [jsonbin_put, jsonbinPutLoop, h0, h1, h2]

theorem load_guild_data_hit (env : Env) (st : BotState) (gid : String)
    (gd : GuildData) (h : alook st.guild_cache gid = some gd) :
    load_guild_data env st gid = (gd, st, []) := by
  unfold load_guild_data
  rw [h]

theorem load_guild_data_dcc (env : Env) (st : BotState) (gid : String) :
    (load_guild_data env st gid).2.1.dynamic_commands_cache =
      st.dynamic_commands_cache := by
  unfold load_guild_data
  cases h : alook st.guild_cache gid
  · by_cases hc : env.hasConfig gid = true <;> simp [hc]
  · rfl

theorem load_guild_data_tree (env : Env) (st : BotState) (gid : String) :
    (load_guild_data env st gid).2.1.tree = st.tree := by
  unfold load_guild_data
  cases h : alook st.guild_cache gid
  · by_cases hc : env.hasConfig gid = true <;> simp [hc]
  · rfl

theorem save_guild_data_fst (env : Env) (st : BotState) (gid : String)
    (d : GuildData) : (save_guild_data env st gid d).1 = saveOK env gid := by
  unfold save_guild_data saveOK
  cases h : env.hasConfig gid <;> simp [h]

theorem save_guild_data_gc (env : Env) (st : BotState) (gid : String)
    (d : GuildData) :
    (save_guild_data env st gid d).2.guild_cache = aset st.guild_cache gid d := by
  unfold save_guild_data
  split <;> rfl

theorem save_guild_data_dcc (env : Env) (st : BotState) (gid : String)
    (d : GuildData) :
    (save_guild_data env st gid d).2.dynamic_commands_cache =
      st.dynamic_commands_cache := by
  unfold save_guild_data
  split <;> rfl

theorem save_guild_data_tree (env : Env) (st : BotState) (gid : String)
    (d : GuildData) : (save_guild_data env st gid d).2.tree = st.tree := by
  unfold save_guild_data
  split <;> rfl

/-! ## Claim C7 -/

/-- Claim C7 (confirmed): an exception raised inside the handler is caught at
the `callback` boundary — the callback returns normally (never `Except.error`)
with the registry state untouched, and, when the interaction is still open and
the reply send does not itself fail, the invocation is answered with the
failure report for that exception. -/
theorem handler_exception_contained (env : InvokeEnv) (st : BotState)
    (msg : String) (h : env.run_result = .raises msg) :
    ∃ sent, callback env st = (.ok sent, st) ∧
      (env.responseDone = false → env.sendRaises = false →
        sent = some (.errorReport msg)) := by
  unfold callback
  rw [h]
  cases hd : env.responseDone <;> cases hs : env.sendRaises
  · exact ⟨some (.errorReport msg), by simp [hd, hs], fun _ _ => rfl⟩
  · exact ⟨none, by simp [hd, hs], fun _ hs' => by cases hs'⟩
  · exact ⟨none, by simp [hd, hs], fun hd' _ => by cases hd'⟩
  · exact ⟨none, by simp [hd, hs], fun hd' _ => by cases hd'⟩

/-- Witness for `handler_exception_contained` at a concrete invocation. -/
theorem handler_exception_contained_witness :
    ∃ sent, callback envRaise stEmpty = (.ok sent, stEmpty) ∧
      (envRaise.responseDone = false → envRaise.sendRaises = false →
        sent = some (.errorReport "boom")) :=
  handler_exception_contained envRaise stEmpty "boom" rfl

/-! ## Claim C8 -/

/-- Claim C8 (confirmed): with the document uncached and a bin config
present, `load_guild_data` makes exactly three fetch attempts with a fixed
1-second delay after each failure, and when every attempt fails it returns
the empty document rather than an error. -/
theorem load_guild_data_retries (env : Env) (st : BotState) (gid : String)
    (hmiss : alook st.guild_cache gid = none)
    (hcfg : env.hasConfig gid = true)
    (h0 : env.fetch gid 0 = none) (h1 : env.fetch gid 1 = none)
    (h2 : env.fetch gid 2 = none) :
    (load_guild_data env st gid).1 = emptyGuildData ∧
    (load_guild_data env st gid).2.2 =
      [.request, .sleepFor 1, .request, .sleepFor 1, .request, .sleepFor 1] := by
  unfold load_guild_data
  rw [hmiss]
  simp [hcfg, jsonbin_get_all_fail (env.fetch gid) h0 h1 h2]

/-- Witness for `load_guild_data_retries` at a concrete input. -/
theorem load_guild_data_retries_witness :
    (load_guild_data envBase stEmpty "g").1 = emptyGuildData ∧
    (load_guild_data envBase stEmpty "g").2.2 =
      [.request, .sleepFor 1, .request, .sleepFor 1, .request, .sleepFor 1] :=
  load_guild_data_retries envBase stEmpty "g" rfl rfl rfl rfl rfl

/-! ## Claim C9 -/

/-- Claim C9 (confirmed): `save_guild_data` updates the cache before (and
regardless of) the remote write — after a write whose every attempt fails it
returns `false` with the cache still holding the new document — and the
`dynamic_commands_cache` mutation made by `save_dynamic_command` is not
rolled back when the write fails. -/
theorem save_put_failure_cache_first (env : Env) (st : BotState)
    (gid name : String) (code : Source) (descOpt : Option String)
    (D : GuildData) (hcfg : env.hasConfig gid = true)
    (h0 : env.put gid 0 = false) (h1 : env.put gid 1 = false)
    (h2 : env.put gid 2 = false) :
    alook (save_guild_data env st gid D).2.guild_cache gid = some D ∧
    (save_guild_data env st gid D).1 = false ∧
    (save_dynamic_command env st gid name code descOpt).1 = false ∧
    cacheLook (save_dynamic_command env st gid name code descOpt).2 gid name =
      some { code := code
             description := descOpt.getD ("Dynamic command: " ++ name) } := by
  have hput : jsonbin_put (env.put gid) = false := jsonbin_put_all_fail _ h0 h1 h2
  have hso : saveOK env gid = false := by simp [saveOK, hcfg, hput]
  refine ⟨?_, ?_, ?_, ?_⟩
  · rw [save_guild_data_gc]
    exact alook_aset_self st.guild_cache gid D
  · rw [save_guild_data_fst, hso]
  · unfold save_dynamic_command
    rw [save_guild_data_fst, hso]
  · unfold save_dynamic_command cacheLook
    rw [save_guild_data_dcc, load_guild_data_dcc]
    dsimp only
    rw [alook_aset_self]
    dsimp only [Option.bind]
    rw [alook_aset_self]

/-- Witness for `save_put_failure_cache_first` at a concrete input. -/
theorem save_put_failure_cache_first_witness :
    alook (save_guild_data envPutFail stReg "g" gdFoo).2.guild_cache "g" = some gdFoo ∧
    (save_guild_data envPutFail stReg "g" gdFoo).1 = false ∧
    (save_dynamic_command envPutFail stReg "g" "bar" srcOk (some "x")).1 = false ∧
    cacheLook (save_dynamic_command envPutFail stReg "g" "bar" srcOk (some "x")).2 "g" "bar" =
      some { code := srcOk, description := (some "x").getD ("Dynamic command: " ++ "bar") } :=
  save_put_failure_cache_first envPutFail stReg "g" "bar" srcOk (some "x") gdFoo
    rfl rfl rfl rfl

/-! ## Store-deletion lemmas -/

theorem delete_store_dcc (env : Env) (st : BotState) (gid n : String) :
    (delete_dynamic_command_from_store env st gid n).2.dynamic_commands_cache =
      match alook st.dynamic_commands_cache gid with
      | some m => aset st.dynamic_commands_cache gid (adel m n)
      | none => st.dynamic_commands_cache := by
  unfold delete_dynamic_command_from_store
  cases hc : alook st.dynamic_commands_cache gid with
  | none =>
      dsimp only
      cases hdc : (load_guild_data env st gid).1.dynamic_commands
      · simp [hdc, load_guild_data_dcc]
      · simp [hdc, save_guild_data_dcc, load_guild_data_dcc]
  | some m =>
      dsimp only
      cases hdc : (load_guild_data env { st with dynamic_commands_cache := aset st.dynamic_commands_cache gid (adel m n) } gid).1.dynamic_commands
      · simp [hdc, load_guild_data_dcc]
      · simp [hdc, save_guild_data_dcc, load_guild_data_dcc]

theorem delete_store_tree (env : Env) (st : BotState) (gid n : String) :
    (delete_dynamic_command_from_store env st gid n).2.tree = st.tree := by
  unfold delete_dynamic_command_from_store
  cases hc : alook st.dynamic_commands_cache gid with
  | none =>
      dsimp only
      cases hdc : (load_guild_data env st gid).1.dynamic_commands
      · simp [hdc, load_guild_data_tree]
      · simp [hdc, save_guild_data_tree, load_guild_data_tree]
  | some m =>
      dsimp only
      cases hdc : (load_guild_data env { st with dynamic_commands_cache := aset st.dynamic_commands_cache gid (adel m n) } gid).1.dynamic_commands
      · simp [hdc, load_guild_data_tree]
      · simp [hdc, save_guild_data_tree, load_guild_data_tree]

theorem delete_store_cacheLook (env : Env) (st : BotState) (gid n : String) :
    cacheLook (delete_dynamic_command_from_store env st gid n).2 gid n = none := by
  unfold cacheLook
  rw [delete_store_dcc]
  cases hc : alook st.dynamic_commands_cache gid
  · simp [hc]
  · simp [alook_aset_self, alook_adel_self]

theorem delete_store_fst (env : Env) (st : BotState) (gid n : String)
    (gd : GuildData) (hgd : alook st.guild_cache gid = some gd) :
    (delete_dynamic_command_from_store env st gid n).1 =
      match gd.dynamic_commands with
      | none => true
      | some _ => saveOK env gid := by
  unfold delete_dynamic_command_from_store
  cases hc : alook st.dynamic_commands_cache gid with
  | none =>
      dsimp only
      rw [load_guild_data_hit env st gid gd hgd]
      cases hdc : gd.dynamic_commands
      · simp [hdc]
      · simp [hdc, save_guild_data_fst]
  | some m =>
      dsimp only
      rw [load_guild_data_hit env { st with dynamic_commands_cache := aset st.dynamic_commands_cache gid (adel m n) } gid gd hgd]
      cases hdc : gd.dynamic_commands
      · simp [hdc]
      · simp [hdc, save_guild_data_fst]

/-- The tail of `delete_command` after the dispatch-tree removal, specified
for any intermediate state `st1` whose tree no longer contains the name. -/
theorem delete_tail_spec (env : Env) (st1 : BotState) (gid name : String)
    (gd : GuildData) (hgd1 : alook st1.guild_cache gid = some gd)
    (ht1 : (treeCmds st1 gid).contains name = false) :
    cacheLook (if !(delete_dynamic_command_from_store env st1 gid name).1 then (DeleteOutcome.storageFail, (delete_dynamic_command_from_store env st1 gid name).2) else (DeleteOutcome.deleted, (delete_dynamic_command_from_store env st1 gid name).2)).2 gid name = none ∧
    (treeCmds (if !(delete_dynamic_command_from_store env st1 gid name).1 then (DeleteOutcome.storageFail, (delete_dynamic_command_from_store env st1 gid name).2) else (DeleteOutcome.deleted, (delete_dynamic_command_from_store env st1 gid name).2)).2 gid).contains name = false ∧
    ((if !(delete_dynamic_command_from_store env st1 gid name).1 then (DeleteOutcome.storageFail, (delete_dynamic_command_from_store env st1 gid name).2) else (DeleteOutcome.deleted, (delete_dynamic_command_from_store env st1 gid name).2)).1 = DeleteOutcome.deleted ↔
      (gd.dynamic_commands = none ∨ saveOK env gid = true)) := by
  have hcl := delete_store_cacheLook env st1 gid name
  have ht := delete_store_tree env st1 gid name
  have hf := delete_store_fst env st1 gid name gd hgd1
  have htc : (treeCmds (delete_dynamic_command_from_store env st1 gid name).2 gid).contains name = false := by
    unfold treeCmds
    rw [ht]
    exact ht1
  cases hr : (delete_dynamic_command_from_store env st1 gid name).1 with
  | true =>
      rw [hr] at hf
      simp only [hr, Bool.not_true, Bool.false_eq_true, if_neg, ite_false]
      refine ⟨hcl, htc, ?_⟩
      constructor
      · intro _
        cases hdc : gd.dynamic_commands with
        | none => exact Or.inl rfl
        | some dc =>
            simp only [hdc] at hf
            exact Or.inr hf.symm
      · intro _
        trivial
  | false =>
      rw [hr] at hf
      simp only [hr, Bool.not_false, ite_true]
      refine ⟨hcl, htc, ?_⟩
      constructor
      · intro hcontra
        cases hcontra
      · intro hrhs
        cases hdc : gd.dynamic_commands with
        | none =>
            simp only [hdc] at hf
            cases hf
        | some dc =>
            simp only [hdc] at hf
            rcases hrhs with hl | hr2
            · rw [hdc] at hl
              cases hl
            · rw [← hf] at hr2
              cases hr2

/-! ## Claim C5 -/

/-- Claim C5 (corrected).  `delete_command` never fails with a not-found
error: with the guild document cached, the command (present or absent) ends
up absent from the cache and the dispatch tree, and the reported outcome is
"deleted" iff the document had no `dynamic_commands` key (a silent no-op) or
the document save succeeded — deleting an absent name reports success. -/
theorem delete_command_never_notfound (env : Env) (st : BotState)
    (gid name : String) (gd : GuildData)
    (hgd : alook st.guild_cache gid = some gd) :
    cacheLook (delete_command env st gid name).2 gid name = none ∧
    (treeCmds (delete_command env st gid name).2 gid).contains name = false ∧
    ((delete_command env st gid name).1 = .deleted ↔
      (gd.dynamic_commands = none ∨ saveOK env gid = true)) := by
  unfold delete_command
  dsimp only
  by_cases hct : (treeCmds st gid).contains name = true
  · rw [if_pos hct]
    refine delete_tail_spec env { st with tree := aset st.tree gid ((treeCmds st gid).filter (fun c => c != name)) } gid name gd hgd ?_
    have : treeCmds { st with tree := aset st.tree gid ((treeCmds st gid).filter (fun c => c != name)) } gid = (treeCmds st gid).filter (fun c => c != name) := by
      unfold treeCmds
      dsimp only
      rw [alook_aset_self]
      rfl
    rw [this]
    exact contains_filter_self _ name
  · rw [if_neg hct]
    simp only [Bool.not_eq_true] at hct
    exact delete_tail_spec env st gid name gd hgd hct

/-- Witness for `delete_command_never_notfound` at a concrete input. -/
theorem delete_command_never_notfound_witness :
    cacheLook (delete_command envBase stReg "g" "foo").2 "g" "foo" = none ∧
    (treeCmds (delete_command envBase stReg "g" "foo").2 "g").contains "foo" = false ∧
    ((delete_command envBase stReg "g" "foo").1 = .deleted ↔
      (gdFoo.dynamic_commands = none ∨ saveOK envBase "g" = true)) :=
  delete_command_never_notfound envBase stReg "g" "foo" gdFoo rfl

/-- Claim C5 counterexample: deleting a command that is not registered does
not fail with a not-found error — it reports success and leaves the state
unchanged. -/
theorem delete_absent_counterexample :
    cacheLook stEmptyDoc "g" "ghost" = none ∧
    delete_command envBase stEmptyDoc "g" "ghost" = (.deleted, stEmptyDoc) :=
  ⟨rfl, rfl⟩

/-! ## Registration-failure lemmas -/

theorem register_err_facts (env : Env) (st : BotState) (gid n : String)
    (code : Source) (d : Option String) (e : String) (st' : BotState)
    (h : register_dynamic_command env st gid n code d = (.err e, st')) :
    st'.dynamic_commands_cache = st.dynamic_commands_cache ∧
    st'.guild_cache = st.guild_cache ∧
    (st' = st ∨ st'.tree = aset st.tree gid ((treeCmds st gid).filter (fun c => c != n))) := by
  unfold register_dynamic_command at h
  cases hv : validate_user_code code.len code.parsed with
  | some uerr =>
      simp only [hv] at h
      injection h with h1 h2
      subst h2
      exact ⟨rfl, rfl, Or.inl rfl⟩
  | none =>
      simp only [hv] at h
      by_cases hf : env.execFails = true
      · rw [if_pos hf] at h
        injection h with h1 h2
        subst h2
        exact ⟨rfl, rfl, Or.inl rfl⟩
      · rw [if_neg hf] at h
        by_cases hy : (!env.execYieldsRun) = true
        · rw [if_pos hy] at h
          injection h with h1 h2
          subst h2
          exact ⟨rfl, rfl, Or.inl rfl⟩
        · rw [if_neg hy] at h
          by_cases ha : env.addCommandFails = true
          · rw [if_pos ha] at h
            by_cases hcm : (treeCmds st gid).contains n = true
            · rw [if_pos hcm] at h
              injection h with h1 h2
              subst h2
              exact ⟨rfl, rfl, Or.inr rfl⟩
            · rw [if_neg hcm] at h
              injection h with h1 h2
              subst h2
              exact ⟨rfl, rfl, Or.inl rfl⟩
          · rw [if_neg ha] at h
            injection h with h1 h2
            cases h1

theorem register_blocked_err (env : Env) (st : BotState) (gid n : String)
    (code : Source) (d : Option String) (hb : registerBlocked env code) :
    ∃ e, (register_dynamic_command env st gid n code d).1 = RegResult.err e := by
  unfold register_dynamic_command
  cases hv : validate_user_code code.len code.parsed with
  | some uerr => exact ⟨uerr.message, rfl⟩
  | none =>
      cases hf : env.execFails with
      | true => exact ⟨"Execution error", by simp [hf]⟩
      | false =>
          cases hy : env.execYieldsRun with
          | false =>
              exact ⟨"No callable run(interaction) function found in code.",
                by simp [hf, hy]⟩
          | true =>
              cases ha : env.addCommandFails with
              | true => exact ⟨"Failed to add command", by simp [hf, hy, ha]⟩
              | false =>
                  exfalso
                  rcases hb with hb | hb | hb | hb
                  · exact hb hv
                  · rw [hf] at hb
                    cases hb
                  · rw [hy] at hb
                    cases hb
                  · rw [ha] at hb
                    cases hb

/-! ## Claim C2 -/

/-- Claim C2 (corrected).  When `register_dynamic_command` fails it never
touches `dynamic_commands_cache` or `guild_cache`, and on a validation,
exec, or missing-`run` failure the state is fully unchanged; but on a
dispatch-table add failure the pre-existing dispatch-tree entry for the name
has already been removed and is not restored — the pre-existing command stops
being callable. -/
theorem register_failure_state (env : Env) (st : BotState) (gid n : String)
    (code : Source) (d : Option String) (e : String) (st' : BotState)
    (h : register_dynamic_command env st gid n code d = (.err e, st')) :
    st'.dynamic_commands_cache = st.dynamic_commands_cache ∧
    st'.guild_cache = st.guild_cache ∧
    (st' = st ∨ st'.tree = aset st.tree gid ((treeCmds st gid).filter (fun c => c != n))) :=
  register_err_facts env st gid n code d e st' h

/-- Witness for `register_failure_state` at a concrete input: re-registering
`foo` over `stReg` while `bot.tree.add_command` fails. -/
theorem register_failure_state_witness :
    stRegTreeless.dynamic_commands_cache = stReg.dynamic_commands_cache ∧
    stRegTreeless.guild_cache = stReg.guild_cache ∧
    (stRegTreeless = stReg ∨ stRegTreeless.tree = aset stReg.tree "g" ((treeCmds stReg "g").filter (fun c => c != "foo"))) :=
  register_failure_state envAddFail stReg "g" "foo" srcOk none
    "Failed to add command" stRegTreeless rfl

/-- Claim C2 counterexample: with `foo` registered and callable, a
re-registration of `foo` that fails at the dispatch-table add step returns a
failure but leaves `foo` removed from the dispatch tree — the registry state
is not what it was before the call and the pre-existing command is no longer
callable. -/
theorem register_rollback_counterexample :
    cacheLook stReg "g" "foo" = some cmdFoo ∧
    (treeCmds stReg "g").contains "foo" = true ∧
    (register_dynamic_command envAddFail stReg "g" "foo" srcOk none).1 = .err "Failed to add command" ∧
    (treeCmds (register_dynamic_command envAddFail stReg "g" "foo" srcOk none).2 "g").contains "foo" = false :=
  ⟨rfl, rfl, rfl, rfl⟩

/-! ## Claim C1 -/

/-- The tail of `rename_command` (after `old` was removed from the dispatch
tree and the store), for any intermediate state `st1`: when registering the
new name fails, the failed registration is reported and neither name is
registered afterwards. -/
theorem rename_core (env : Env) (st1 : BotState) (gid old_name new_name : String)
    (m : AList CmdData) (cmd : CmdData)
    (hm1 : alook st1.dynamic_commands_cache gid = some m)
    (hblock : registerBlocked env cmd.code)
    (hnewc : alook (adel m old_name) new_name = none)
    (htO : (treeCmds st1 gid).contains old_name = false)
    (htN : (treeCmds st1 gid).contains new_name = false) :
    ∃ e st3,
      register_dynamic_command env (delete_dynamic_command_from_store env st1 gid old_name).2 gid new_name cmd.code (some cmd.description) = (.err e, st3) ∧
      cacheLook st3 gid old_name = none ∧
      cacheLook st3 gid new_name = none ∧
      (treeCmds st3 gid).contains old_name = false ∧
      (treeCmds st3 gid).contains new_name = false := by
  have hddcc : (delete_dynamic_command_from_store env st1 gid old_name).2.dynamic_commands_cache = aset st1.dynamic_commands_cache gid (adel m old_name) := by
    rw [delete_store_dcc, hm1]
  have hdt : (delete_dynamic_command_from_store env st1 gid old_name).2.tree = st1.tree :=
    delete_store_tree env st1 gid old_name
  have hdtO : (treeCmds (delete_dynamic_command_from_store env st1 gid old_name).2 gid).contains old_name = false := by
    unfold treeCmds
    rw [hdt]
    exact htO
  have hdtN : (treeCmds (delete_dynamic_command_from_store env st1 gid old_name).2 gid).contains new_name = false := by
    unfold treeCmds
    rw [hdt]
    exact htN
  obtain ⟨e, hre⟩ := register_blocked_err env
    (delete_dynamic_command_from_store env st1 gid old_name).2 gid new_name
    cmd.code (some cmd.description) hblock
  cases hreg : register_dynamic_command env (delete_dynamic_command_from_store env st1 gid old_name).2 gid new_name cmd.code (some cmd.description) with
  | mk res st3 =>
      rw [hreg] at hre
      dsimp only at hre
      subst hre
      obtain ⟨hsdcc, hsgc, hstree⟩ := register_err_facts env
        (delete_dynamic_command_from_store env st1 gid old_name).2 gid new_name
        cmd.code (some cmd.description) e st3 hreg
      refine ⟨e, st3, rfl, ?_, ?_, ?_, ?_⟩
      · unfold cacheLook
        rw [hsdcc, hddcc, alook_aset_self]
        exact alook_adel_self m old_name
      · unfold cacheLook
        rw [hsdcc, hddcc, alook_aset_self]
        exact hnewc
      · rcases hstree with h | h
        · rw [h]
          exact hdtO
        · unfold treeCmds
          rw [h, alook_aset_self]
          exact contains_filter_mono _ _ _ hdtO
      · rcases hstree with h | h
        · rw [h]
          exact hdtN
        · unfold treeCmds
          rw [h, alook_aset_self]
          exact contains_filter_self _ _

/-- Claim C1 (corrected).  `rename_command` is remove-then-add: when `old` is
registered and the registration of `new` fails (validation of the stored
source, exec failure, missing `run`, or dispatch-table add failure — any
`registerBlocked` mode), the rename reports the registration error, but `old`
has already been removed from the command cache and the dispatch tree, so
afterwards neither `old` nor `new` is registered or callable. -/
theorem rename_failure_drops_old (env : Env) (st : BotState)
    (gid old_name new_name : String) (m : AList CmdData) (cmd : CmdData)
    (hm : alook st.dynamic_commands_cache gid = some m)
    (hold : alook m old_name = some cmd)
    (hblock : registerBlocked env cmd.code)
    (hnewc : alook (adel m old_name) new_name = none)
    (hnewt : (treeCmds st gid).contains new_name = false) :
    ∃ e st', rename_command env st gid old_name new_name = (.registerError e, st') ∧
      cacheLook st' gid old_name = none ∧
      cacheLook st' gid new_name = none ∧
      (treeCmds st' gid).contains old_name = false ∧
      (treeCmds st' gid).contains new_name = false := by
  unfold rename_command
  simp only [hm, hold]
  by_cases hct : (treeCmds st gid).contains old_name = true
  · rw [if_pos hct]
    have htO' : treeCmds { st with tree := aset st.tree gid ((treeCmds st gid).filter (fun c => c != old_name)) } gid = (treeCmds st gid).filter (fun c => c != old_name) := by
      unfold treeCmds
      dsimp only
      rw [alook_aset_self]
      rfl
    obtain ⟨e, st3, hreg, h1, h2, h3, h4⟩ := rename_core env
      { st with tree := aset st.tree gid ((treeCmds st gid).filter (fun c => c != old_name)) }
      gid old_name new_name m cmd hm hblock hnewc
      (by rw [htO']; exact contains_filter_self _ _)
      (by rw [htO']; exact contains_filter_mono _ _ _ hnewt)
    refine ⟨e, st3, ?_, h1, h2, h3, h4⟩
    simp only [hreg]
  · rw [if_neg hct]
    simp only [Bool.not_eq_true] at hct
    obtain ⟨e, st3, hreg, h1, h2, h3, h4⟩ := rename_core env st gid old_name
      new_name m cmd hm hblock hnewc hct hnewt
    refine ⟨e, st3, ?_, h1, h2, h3, h4⟩
    simp only [hreg]

/-- Witness for `rename_failure_drops_old` at a concrete input: renaming
`foo` to `bar` while `exec` of the stored source fails. -/
theorem rename_failure_drops_old_witness :
    ∃ e st', rename_command envExecFail stReg "g" "foo" "bar" = (.registerError e, st') ∧
      cacheLook st' "g" "foo" = none ∧
      cacheLook st' "g" "bar" = none ∧
      (treeCmds st' "g").contains "foo" = false ∧
      (treeCmds st' "g").contains "bar" = false :=
  rename_failure_drops_old envExecFail stReg "g" "foo" "bar"
    [("foo", cmdFoo)] cmdFoo rfl rfl (Or.inr (Or.inl rfl)) rfl rfl

/-- Claim C1 counterexample: with `foo` registered, a rename whose
re-registration fails leaves `foo` deregistered and uncallable — the claimed
"old is still fully registered and callable" is false at this input. -/
theorem rename_failure_counterexample :
    cacheLook stReg "g" "foo" = some cmdFoo ∧
    (rename_command envExecFail stReg "g" "foo" "bar").1 = .registerError "Execution error" ∧
    cacheLook (rename_command envExecFail stReg "g" "foo" "bar").2 "g" "foo" = none ∧
    (treeCmds (rename_command envExecFail stReg "g" "foo" "bar").2 "g").contains "foo" = false :=
  ⟨rfl, rfl, rfl, rfl⟩

end BotQube
